import Mathlib

/-!
Verification development for the event-evaluation pipeline of the
`caits` repository (`src/caits/performance/evaluation.py` and the
interfaces it relies on).  Times and probabilities are modelled as
rationals; events are half-open intervals tagged with a class label.
-/

namespace Caits

/-- Modelled from the spec: an Event is a half-open time interval
`[start, stop)` tagged with a class label (spec §3; the module
`caits/performance/detection.py` defining the event type is not under
`src/`). -/
structure Event where
  label : Nat
  start : ℚ
  stop : ℚ
deriving DecidableEq

/-- Modelled from the spec: `overlap = max(0, min(e1,e2) - max(s1,s2))`
for two half-open intervals (spec §4.5; `detection.py` is not under
`src/`). -/
def overlap_len (s1 e1 s2 e2 : ℚ) : ℚ :=
  max 0 (min e1 e2 - max s1 s2)

/-- Modelled from the spec: `union = (e1-s1) + (e2-s2) - overlap`
(spec §4.5). -/
def union_len (s1 e1 s2 e2 : ℚ) : ℚ :=
  (e1 - s1) + (e2 - s2) - overlap_len s1 e1 s2 e2

/-- Modelled from the spec: temporal Intersection-over-Union of two
half-open intervals, `overlap / union` (spec §4.5). -/
def IoU (s1 e1 s2 e2 : ℚ) : ℚ :=
  overlap_len s1 e1 s2 e2 / union_len s1 e1 s2 e2

theorem overlap_len_nonneg (s1 e1 s2 e2 : ℚ) : 0 ≤ overlap_len s1 e1 s2 e2 :=
  le_max_left 0 _

theorem overlap_len_le_left (s1 e1 s2 e2 : ℚ) (h1 : s1 < e1) :
    overlap_len s1 e1 s2 e2 ≤ e1 - s1 := by
  have hmin : min e1 e2 ≤ e1 := min_le_left _ _
  have hmax : s1 ≤ max s1 s2 := le_max_left _ _
  exact max_le (by linarith) (by linarith)

theorem overlap_len_le_right (s1 e1 s2 e2 : ℚ) (h2 : s2 < e2) :
    overlap_len s1 e1 s2 e2 ≤ e2 - s2 := by
  have hmin : min e1 e2 ≤ e2 := min_le_right _ _
  have hmax : s2 ≤ max s1 s2 := le_max_right _ _
  exact max_le (by linarith) (by linarith)

theorem union_len_pos (s1 e1 s2 e2 : ℚ) (h1 : s1 < e1) (h2 : s2 < e2) :
    0 < union_len s1 e1 s2 e2 := by
  have hov : overlap_len s1 e1 s2 e2 ≤ e2 - s2 := overlap_len_le_right s1 e1 s2 e2 h2
  unfold union_len
  linarith

theorem IoU_eq_one_iff (s1 e1 s2 e2 : ℚ) (h1 : s1 < e1) (h2 : s2 < e2) :
    IoU s1 e1 s2 e2 = 1 ↔ s1 = s2 ∧ e1 = e2 := by
  have hu := union_len_pos s1 e1 s2 e2 h1 h2
  constructor
  · intro h
    rw [IoU, div_eq_one_iff_eq hu.ne'] at h
    have hl := overlap_len_le_left s1 e1 s2 e2 h1
    have hr := overlap_len_le_right s1 e1 s2 e2 h2
    have hov1 : overlap_len s1 e1 s2 e2 = e1 - s1 := by
      unfold union_len at h; linarith
    have hov2 : overlap_len s1 e1 s2 e2 = e2 - s2 := by
      unfold union_len at h; linarith
    have hm1 : min e1 e2 - max s1 s2 = e1 - s1 := by
      rcases max_choice 0 (min e1 e2 - max s1 s2) with hc | hc
      · rw [overlap_len, hc] at hov1; linarith
      · rw [overlap_len, hc] at hov1; exact hov1
    have hm2 : min e1 e2 - max s1 s2 = e2 - s2 := by
      rcases max_choice 0 (min e1 e2 - max s1 s2) with hc | hc
      · rw [overlap_len, hc] at hov2; linarith
      · rw [overlap_len, hc] at hov2; exact hov2
    have ha : min e1 e2 ≤ e1 := min_le_left _ _
    have hb : min e1 e2 ≤ e2 := min_le_right _ _
    have hc : s1 ≤ max s1 s2 := le_max_left _ _
    have hd : s2 ≤ max s1 s2 := le_max_right _ _
    constructor <;> linarith
  · rintro ⟨rfl, rfl⟩
    have hov : overlap_len s1 e1 s1 e1 = e1 - s1 := by
      rw [overlap_len, min_self, max_self]
      exact max_eq_right (by linarith)
    rw [IoU, union_len, hov]
    have hden : (e1 - s1) + (e1 - s1) - (e1 - s1) = e1 - s1 := by ring
    rw [hden]
    exact div_self (by linarith)

theorem IoU_eq_zero_iff (s1 e1 s2 e2 : ℚ) (h1 : s1 < e1) (h2 : s2 < e2) :
    IoU s1 e1 s2 e2 = 0 ↔ min e1 e2 ≤ max s1 s2 := by
  have hu := union_len_pos s1 e1 s2 e2 h1 h2
  rw [IoU, div_eq_zero_iff]
  constructor
  · rintro (h | h)
    · rw [overlap_len, max_eq_left_iff] at h
      linarith
    · exact absurd h hu.ne'
  · intro h
    left
    rw [overlap_len]
    exact max_eq_left (by linarith)

/-- C2: for valid half-open intervals `[s1,e1)` and `[s2,e2)` (with
`s1 < e1`, `s2 < e2`), the IoU `overlap/union` lies in `[0,1]`, equals 1
exactly when the intervals are identical, and equals 0 exactly when the
intervals do not overlap. -/
theorem IoU_bounds_and_extremes (s1 e1 s2 e2 : ℚ) (h1 : s1 < e1) (h2 : s2 < e2) :
    0 ≤ IoU s1 e1 s2 e2 ∧ IoU s1 e1 s2 e2 ≤ 1 ∧
    (IoU s1 e1 s2 e2 = 1 ↔ (s1 = s2 ∧ e1 = e2)) ∧
    (IoU s1 e1 s2 e2 = 0 ↔ Set.Ico s1 e1 ∩ Set.Ico s2 e2 = ∅) := by
  have hu := union_len_pos s1 e1 s2 e2 h1 h2
  refine ⟨div_nonneg (overlap_len_nonneg s1 e1 s2 e2) hu.le, ?_,
    IoU_eq_one_iff s1 e1 s2 e2 h1 h2, ?_⟩
  · rw [IoU, div_le_one hu]
    have hl := overlap_len_le_left s1 e1 s2 e2 h1
    have hr := overlap_len_le_right s1 e1 s2 e2 h2
    unfold union_len
    linarith
  · rw [IoU_eq_zero_iff s1 e1 s2 e2 h1 h2, Set.Ico_inter_Ico, Set.Ico_eq_empty_iff]
    simp only [sup_eq_max, inf_eq_min, not_lt]

/-- Witness for C2 at the concrete intervals `[0,1)` and `[0,1)`. -/
theorem IoU_bounds_and_extremes_witness :
    (0 : ℚ) < 1 ∧
    (0 ≤ IoU 0 1 0 1 ∧ IoU 0 1 0 1 ≤ 1 ∧
      (IoU 0 1 0 1 = 1 ↔ ((0 : ℚ) = 0 ∧ (1 : ℚ) = 1)) ∧
      (IoU 0 1 0 1 = 0 ↔ Set.Ico (0 : ℚ) 1 ∩ Set.Ico (0 : ℚ) 1 = ∅)) :=
  ⟨by norm_num, IoU_bounds_and_extremes 0 1 0 1 (by norm_num) (by norm_num)⟩

/-- IoU of two events, computed on their time intervals. -/
def eiou (a b : Event) : ℚ :=
  IoU a.start a.stop b.start b.stop

/-- Lookup of a predicted event by index (indices are produced from
`List.range`, so they are always in bounds where used). -/
def getEvent (preds : List Event) (i : ℕ) : Event :=
  preds.getD i ⟨0, 0, 0⟩

/-- Modelled from the spec: candidate `j` beats candidate `i` for
ground-truth event `g` when its IoU is strictly higher, or on an IoU tie
when its start time is strictly earlier (spec §4.5 steps 2 and the
tie-break rule; `detection.py` is not under `src/`). -/
def betterPick (preds : List Event) (g : Event) (j i : ℕ) : Prop :=
  eiou g (getEvent preds i) < eiou g (getEvent preds j) ∨
    (eiou g (getEvent preds j) = eiou g (getEvent preds i) ∧
      (getEvent preds j).start < (getEvent preds i).start)

instance (preds : List Event) (g : Event) (j i : ℕ) :
    Decidable (betterPick preds g j i) := by
  unfold betterPick
  infer_instance

/-- Modelled from the spec: among the still-unconsumed predicted events
(given by their indices), select the one with the highest IoU against
`g`, ties broken by earliest start time (spec §4.5 step 2). -/
def pickBest (preds : List Event) (g : Event) : List ℕ → Option ℕ
  | [] => none
  | i :: rest =>
    match pickBest preds g rest with
    | none => some i
    | some j => if betterPick preds g j i then some j else some i

theorem pickBest_mem (preds : List Event) (g : Event) (l : List ℕ) (j : ℕ)
    (h : pickBest preds g l = some j) : j ∈ l := by
  induction l with
  | nil => simp [pickBest] at h
  | cons i rest ih =>
    rw [pickBest] at h
    split at h
    · cases h
      exact List.mem_cons_self _ _
    · rename_i k hk
      split at h
      · cases h
        exact List.mem_cons_of_mem _ (ih hk)
      · cases h
        exact List.mem_cons_self _ _

/-- Modelled from the spec: the four-way classification outcome.
`insertions` and `deletions` hold indices of predicted resp.
ground-truth events; `corrects` and `substitutions` hold matched
(ground-truth index, predicted index) pairs (spec §3
ClassificationOutcome, §4.5). -/
structure ICSD where
  insertions : List ℕ
  corrects : List (ℕ × ℕ)
  substitutions : List (ℕ × ℕ)
  deletions : List ℕ
deriving DecidableEq

def addDeletion (gi : ℕ) (r : ICSD) : ICSD :=
  ⟨r.insertions, r.corrects, r.substitutions, gi :: r.deletions⟩

def addCorrect (p : ℕ × ℕ) (r : ICSD) : ICSD :=
  ⟨r.insertions, p :: r.corrects, r.substitutions, r.deletions⟩

def addSubstitution (p : ℕ × ℕ) (r : ICSD) : ICSD :=
  ⟨r.insertions, r.corrects, p :: r.substitutions, r.deletions⟩

/-- Modelled from the spec: greedy bipartite matching with ground truth
as anchor (spec §4.5).  For each ground-truth event in order, the best
unconsumed predicted event is selected; if its IoU reaches the threshold
the pair is a correct (same class) or substitution (different class) and
the predicted event is consumed; otherwise the ground-truth event is a
deletion.  Predicted events never consumed are insertions. -/
def classifyAux (preds : List Event) (th : ℚ) :
    List (ℕ × Event) → List ℕ → ICSD
  | [], avail => ⟨avail, [], [], []⟩
  | (gi, g) :: rest, avail =>
    match pickBest preds g avail with
    | none => addDeletion gi (classifyAux preds th rest avail)
    | some pj =>
      if th ≤ eiou g (getEvent preds pj) then
        if (getEvent preds pj).label = g.label then
          addCorrect (gi, pj) (classifyAux preds th rest (avail.erase pj))
        else
          addSubstitution (gi, pj) (classifyAux preds th rest (avail.erase pj))
      else
        addDeletion gi (classifyAux preds th rest avail)

/-- Modelled from the spec: `classify_events` over full event lists;
predicted events are identified by their positions (spec §4.5;
`caits/performance/detection.py` is not under `src/`). -/
def classify_events (preds gts : List Event) (th : ℚ) : ICSD :=
  classifyAux preds th gts.enum (List.range preds.length)

/-- Ground-truth indices as classified: correct, substitution or
deletion. -/
def gtSide (r : ICSD) : List ℕ :=
  r.corrects.map Prod.fst ++ r.substitutions.map Prod.fst ++ r.deletions

/-- Predicted-event indices as classified: correct, substitution or
insertion. -/
def predSide (r : ICSD) : List ℕ :=
  r.corrects.map Prod.snd ++ r.substitutions.map Prod.snd ++ r.insertions

theorem gtSide_addDeletion (gi : ℕ) (r : ICSD) :
    (gtSide (addDeletion gi r)).Perm (gi :: gtSide r) :=
  List.perm_middle

theorem predSide_addDeletion (gi : ℕ) (r : ICSD) :
    predSide (addDeletion gi r) = predSide r := rfl

theorem gtSide_addCorrect (p : ℕ × ℕ) (r : ICSD) :
    gtSide (addCorrect p r) = p.1 :: gtSide r := rfl

theorem predSide_addCorrect (p : ℕ × ℕ) (r : ICSD) :
    predSide (addCorrect p r) = p.2 :: predSide r := rfl

theorem gtSide_addSubstitution (p : ℕ × ℕ) (r : ICSD) :
    (gtSide (addSubstitution p r)).Perm (p.1 :: gtSide r) :=
  List.Perm.append_right _ List.perm_middle

theorem predSide_addSubstitution (p : ℕ × ℕ) (r : ICSD) :
    (predSide (addSubstitution p r)).Perm (p.2 :: predSide r) :=
  List.Perm.append_right _ List.perm_middle

theorem classifyAux_gt_perm (preds : List Event) (th : ℚ) (gtl : List (ℕ × Event)) :
    ∀ avail : List ℕ,
      (gtSide (classifyAux preds th gtl avail)).Perm (gtl.map Prod.fst) := by
  induction gtl with
  | nil => intro avail; exact List.Perm.refl _
  | cons hd rest ih =>
    intro avail
    obtain ⟨gi, g⟩ := hd
    simp only [classifyAux, List.map_cons]
    split
    · exact (gtSide_addDeletion _ _).trans ((ih avail).cons gi)
    · rename_i pj hpj
      split
      · split
        · exact (ih _).cons gi
        · exact (gtSide_addSubstitution _ _).trans ((ih _).cons gi)
      · exact (gtSide_addDeletion _ _).trans ((ih avail).cons gi)

theorem classifyAux_pred_perm (preds : List Event) (th : ℚ) (gtl : List (ℕ × Event)) :
    ∀ avail : List ℕ,
      (predSide (classifyAux preds th gtl avail)).Perm avail := by
  induction gtl with
  | nil => intro avail; exact List.Perm.refl _
  | cons hd rest ih =>
    intro avail
    obtain ⟨gi, g⟩ := hd
    simp only [classifyAux]
    split
    · rw [predSide_addDeletion]; exact ih avail
    · rename_i pj hpj
      have hmem : pj ∈ avail := pickBest_mem preds g avail pj hpj
      have hperm : (pj :: avail.erase pj).Perm avail := (List.perm_cons_erase hmem).symm
      split
      · split
        · exact ((ih _).cons pj).trans hperm
        · exact ((predSide_addSubstitution _ _).trans ((ih _).cons pj)).trans hperm
      · rw [predSide_addDeletion]; exact ih avail

/-- C1: `classify_events` yields a total partition: the ground-truth
indices classified as correct, substitution or deletion are exactly the
indices `0..|gts|-1`, each exactly once; the predicted-event indices
classified as correct, substitution or insertion are exactly
`0..|preds|-1`, each exactly once; and the correct matches are a
bijection (no ground-truth index and no predicted index is used twice),
so `|corrects|` contributes once to both tallies. -/
theorem classify_events_partition (preds gts : List Event) (th : ℚ) :
    (gtSide (classify_events preds gts th)).Perm (List.range gts.length) ∧
    (predSide (classify_events preds gts th)).Perm (List.range preds.length) ∧
    ((classify_events preds gts th).corrects.map Prod.fst).Nodup ∧
    ((classify_events preds gts th).corrects.map Prod.snd).Nodup := by
  have hgt : (gtSide (classify_events preds gts th)).Perm (List.range gts.length) := by
    have h := classifyAux_gt_perm preds th gts.enum (List.range preds.length)
    rwa [List.enum_map_fst] at h
  have hpred : (predSide (classify_events preds gts th)).Perm (List.range preds.length) :=
    classifyAux_pred_perm preds th gts.enum (List.range preds.length)
  have hgtnd : (gtSide (classify_events preds gts th)).Nodup :=
    hgt.nodup_iff.mpr (List.nodup_range _)
  have hprednd : (predSide (classify_events preds gts th)).Nodup :=
    hpred.nodup_iff.mpr (List.nodup_range _)
  rw [gtSide] at hgtnd
  rw [predSide] at hprednd
  exact ⟨hgt, hpred, hgtnd.of_append_left.of_append_left,
    hprednd.of_append_left.of_append_left⟩

/-- Modelled from the spec: a metric either has a rational value or is
the distinguished NotApplicable sentinel used when the denominator is
zero (spec §4.6, §7; `caits/performance/metrics.py` is not under
`src/`). -/
inductive MetricValue where
  | notApplicable : MetricValue
  | value : ℚ → MetricValue
deriving DecidableEq

/-- Modelled from the spec: `detection_ratio = C / (C + D + S)` with the
zero-denominator guard returning the NotApplicable sentinel (spec §4.6;
`metrics.py` is not under `src/`).  Argument order follows the call site
`detection_ratio(corrects, deletions, substitutions)` in
`evaluation.py`. -/
def detection_ratio (corrects deletions substitutions : ℕ) : MetricValue :=
  if corrects + deletions + substitutions = 0 then MetricValue.notApplicable
  else MetricValue.value ((corrects : ℚ) / ((corrects : ℚ) + (deletions : ℚ) + (substitutions : ℚ)))

/-- Modelled from the spec: `reliability = C / (C + I)` with the
zero-denominator guard (spec §4.6).  Argument order follows the call
site `reliability(corrects, insertions)` in `evaluation.py`. -/
def reliability (corrects insertions : ℕ) : MetricValue :=
  if corrects + insertions = 0 then MetricValue.notApplicable
  else MetricValue.value ((corrects : ℚ) / ((corrects : ℚ) + (insertions : ℚ)))

/-- Modelled from the spec: `event_error_rate = (S + D + I) / (C + S + D)`
with the zero-denominator guard (spec §4.6).  Argument order follows the
call site `erer(deletions, insertions, substitutions, corrects)` in
`evaluation.py`. -/
def erer (deletions insertions substitutions corrects : ℕ) : MetricValue :=
  if corrects + substitutions + deletions = 0 then MetricValue.notApplicable
  else MetricValue.value
    (((substitutions : ℚ) + (deletions : ℚ) + (insertions : ℚ)) /
      ((corrects : ℚ) + (substitutions : ℚ) + (deletions : ℚ)))

/-- C3: with nonzero denominators the trust metrics compute
`C/(C+D+S)`, `C/(C+I)` and `(S+D+I)/(C+S+D)`; in particular, for
`C=8, S=1, D=1, I=2` they return `0.8`, `0.8` and `0.4`. -/
theorem trust_metric_formulas (C S D I : ℕ)
    (h1 : C + D + S ≠ 0) (h2 : C + I ≠ 0) :
    detection_ratio C D S = MetricValue.value ((C : ℚ) / ((C : ℚ) + (D : ℚ) + (S : ℚ))) ∧
    reliability C I = MetricValue.value ((C : ℚ) / ((C : ℚ) + (I : ℚ))) ∧
    erer D I S C = MetricValue.value
      (((S : ℚ) + (D : ℚ) + (I : ℚ)) / ((C : ℚ) + (S : ℚ) + (D : ℚ))) ∧
    detection_ratio 8 1 1 = MetricValue.value (8 / 10) ∧
    reliability 8 2 = MetricValue.value (8 / 10) ∧
    erer 1 2 1 8 = MetricValue.value (4 / 10) := by
  have h3 : C + S + D ≠ 0 := by omega
  refine ⟨?_, ?_, ?_, ?_, ?_, ?_⟩
  · rw [detection_ratio, if_neg h1]
  · rw [reliability, if_neg h2]
  · rw [erer, if_neg h3]
  · rw [detection_ratio, if_neg (by decide)]; norm_num
  · rw [reliability, if_neg (by decide)]; norm_num
  · rw [erer, if_neg (by decide)]; norm_num

/-- Witness for C3 at `C=8, S=1, D=1, I=2`. -/
theorem trust_metric_formulas_witness :
    8 + 1 + 1 ≠ 0 ∧ 8 + 2 ≠ 0 ∧
    (detection_ratio 8 1 1 = MetricValue.value ((8 : ℚ) / ((8 : ℚ) + (1 : ℚ) + (1 : ℚ))) ∧
      reliability 8 2 = MetricValue.value ((8 : ℚ) / ((8 : ℚ) + (2 : ℚ))) ∧
      erer 1 2 1 8 = MetricValue.value
        (((1 : ℚ) + (1 : ℚ) + (2 : ℚ)) / ((8 : ℚ) + (1 : ℚ) + (1 : ℚ))) ∧
      detection_ratio 8 1 1 = MetricValue.value (8 / 10) ∧
      reliability 8 2 = MetricValue.value (8 / 10) ∧
      erer 1 2 1 8 = MetricValue.value (4 / 10)) :=
  ⟨by decide, by decide, trust_metric_formulas 8 1 1 2 (by decide) (by decide)⟩

/-- C4: whenever a metric's denominator is zero, the metric returns the
NotApplicable sentinel (and, being a total function, raises no
exception). -/
theorem trust_metrics_zero_denominator :
    (∀ C D S : ℕ, C + D + S = 0 → detection_ratio C D S = MetricValue.notApplicable) ∧
    (∀ C I : ℕ, C + I = 0 → reliability C I = MetricValue.notApplicable) ∧
    (∀ D I S C : ℕ, C + S + D = 0 → erer D I S C = MetricValue.notApplicable) := by
  refine ⟨?_, ?_, ?_⟩
  · intro C D S h; rw [detection_ratio, if_pos h]
  · intro C I h; rw [reliability, if_pos h]
  · intro D I S C h; rw [erer, if_pos h]

/-- Witness for C4 at all-zero counts. -/
theorem trust_metrics_zero_denominator_witness :
    (0 + 0 + 0 = 0 ∧ detection_ratio 0 0 0 = MetricValue.notApplicable) ∧
    (0 + 0 = 0 ∧ reliability 0 0 = MetricValue.notApplicable) ∧
    (0 + 0 + 0 = 0 ∧ erer 0 0 0 0 = MetricValue.notApplicable) :=
  ⟨⟨rfl, trust_metrics_zero_denominator.1 0 0 0 rfl⟩,
    ⟨rfl, trust_metrics_zero_denominator.2.1 0 0 rfl⟩,
    ⟨rfl, trust_metrics_zero_denominator.2.2 0 0 0 0 rfl⟩⟩

/-- The module-level default option list `_OPTIONS` of
`src/caits/performance/evaluation.py` (lines 21-32). -/
def _OPTIONS : List String :=
  ["transformed_data", "prediction_probas", "trust_metrics",
   "non_overlapping_probas", "interpolated_probas", "smoothed_probas",
   "thresholded_probas", "predicted_events", "ICSD", "figures"]

/-- The defaulting step `options_to_include = options_to_include or _OPTIONS`
(evaluation.py line 100): Python `or` replaces both `None` and the empty
list (falsy) by `_OPTIONS`. -/
def resolve_options : Option (List String) → List String
  | none => _OPTIONS
  | some l => if l.isEmpty then _OPTIONS else l

/-- The guarded result-dictionary inserts of `robustness_analysis`
(evaluation.py lines 102-222), in source order: each entry pairs the
option key tested by the `if` with the result fields the branch
populates. -/
def option_field_table : List (String × List String) :=
  [("transformed_data", ["transformed_data"]),
   ("prediction_probas", ["prediction_probas"]),
   ("pred_stats", ["pred_stats"]),
   ("interpolated_probas", ["interpolated_probas"]),
   ("smoothed_probas", ["smoothed_probas"]),
   ("thresholded_probas", ["thresholded_probas"]),
   ("figures", ["figures"]),
   ("ICSD", ["Insertions", "corrects", "substitutions", "deletions"]),
   ("trust_metrics", ["DR", "Reliability", "ERER"])]

/-- Result-dictionary keys produced by `robustness_analysis` for a
resolved allow-list, in insertion order. -/
def robustness_analysis_keys (opts : List String) : List String :=
  ((option_field_table.filter fun p => decide (p.1 ∈ opts)).map Prod.snd).flatten

/-- Internal computations performed by `robustness_analysis` in source
order (evaluation.py lines 106-222): every pipeline stage and plotting
call runs unconditionally; only the three trust-metric computations sit
inside the `if "trust_metrics" in options_to_include` branch. -/
def robustness_analysis_computed (opts : List String) : List String :=
  ["generate_probabilities", "prediction_statistics",
   "plot_prediction_probabilities", "interpolate_probabilities",
   "filter_butterworth", "plot_signal_interpolated",
   "apply_probability_threshold", "get_continuous_events",
   "apply_duration_threshold", "plot_signal_thresholded",
   "classify_events"] ++
  (if "trust_metrics" ∈ opts then ["detection_ratio", "reliability", "erer"] else [])

/-- Control-flow trace of `robustness_analysis` (evaluation.py lines
93-224): the dimensionality check runs first and raises before anything
else; otherwise the call returns the populated result keys together
with the list of computations it performed. -/
def robustness_analysis (ndim : ℕ) (options_to_include : Option (List String)) :
    Except String (List String × List String) :=
  if ndim < 2 then Except.error "`input_data` must be at least 2D."
  else
    Except.ok (robustness_analysis_keys (resolve_options options_to_include),
      robustness_analysis_computed (resolve_options options_to_include))

/-- The option key whose `if` guards a given result field in
`robustness_analysis`. -/
def governing_option : String → String
  | "Insertions" => "ICSD"
  | "corrects" => "ICSD"
  | "substitutions" => "ICSD"
  | "deletions" => "ICSD"
  | "DR" => "trust_metrics"
  | "Reliability" => "trust_metrics"
  | "ERER" => "trust_metrics"
  | k => k

theorem mem_keys_governing (opts : List String) (k : String)
    (hk : k ∈ robustness_analysis_keys opts) : governing_option k ∈ opts := by
  unfold robustness_analysis_keys at hk
  rw [List.mem_flatten] at hk
  obtain ⟨l, hl, hkl⟩ := hk
  rw [List.mem_map] at hl
  obtain ⟨p, hp, rfl⟩ := hl
  rw [List.mem_filter] at hp
  obtain ⟨hpt, hpopts⟩ := hp
  have hgov : ∀ q ∈ option_field_table, ∀ x ∈ q.2, governing_option x = q.1 := by decide
  rw [hgov p hpt k hkl]
  exact of_decide_eq_true hpopts

/-- Parameter names of `robustness_analysis` (evaluation.py lines
35-52). -/
def robustness_analysis_params : List String :=
  ["model", "input_data", "class_names", "sr", "ws", "overlap_percentage",
   "ground_truths", "cutoff", "repeats", "metrics", "interp_choice",
   "prob_th", "dur_th", "iou_th", "figsize", "x_axis", "options_to_include"]

/-- Keyword-argument names used at the call to `robustness_analysis`
inside `robustness_analysis_many` (evaluation.py lines 253-269). -/
def robustness_analysis_many_call_kwargs : List String :=
  ["model", "input_data", "class_names", "cutoff", "sample_rate", "ws",
   "perc_overlap", "ground_truths", "repeats", "metrics", "prob_th",
   "duration_th", "iou_th", "options_to_include", "figsize"]

/-- Keyword-argument names used at the call to `robustness_analysis`
inside `robustness_analysis_batch` (evaluation.py lines 329-345). -/
def robustness_analysis_batch_call_kwargs : List String :=
  ["model", "input_data", "class_names", "cutoff", "sample_rate", "ws",
   "perc_overlap", "ground_truths", "repeats", "metrics", "prob_th",
   "duration_th", "iou_th", "options_to_include", "figsize"]

/-- A Python call made with keyword arguments only succeeds when every
keyword names a parameter of the callee; otherwise it raises TypeError
before the callee body runs. -/
def python_kwargs_accepted (params kwargs : List String) : Bool :=
  kwargs.all fun k => params.contains k

/-- Column `j` of a row-major matrix, as numpy transpose reads it. -/
def getCol (m : List (List ℚ)) (j : ℕ) : List ℚ :=
  m.map fun row => row.getD j 0

/-- Transpose of a row-major matrix with `c` columns (numpy arrays carry
their shape, so the column count is explicit). -/
def transposeM (c : ℕ) (m : List (List ℚ)) : List (List ℚ) :=
  (List.range c).map (getCol m)

/-- The smoothing stage of `robustness_analysis` (evaluation.py lines
145-150): transpose the `(samples, classes)` curve to channel-major,
apply the external low-pass filter to each class channel, stack and
transpose back.  `filt` abstracts the external `filter_butterworth`;
the row length of the stacked array is read off the data, as
`np.array` does. -/
def smoothed_probas (filt : List ℚ → List ℚ) (c : ℕ) (interpolated : List (List ℚ)) :
    List (List ℚ) :=
  transposeM ((((transposeM c interpolated).map filt).headD []).length)
    ((transposeM c interpolated).map filt)

theorem length_transposeM (c : ℕ) (m : List (List ℚ)) :
    (transposeM c m).length = c := by
  simp [transposeM]

theorem mem_transposeM_length (c : ℕ) (m : List (List ℚ)) (row : List ℚ)
    (h : row ∈ transposeM c m) : row.length = m.length := by
  unfold transposeM at h
  rw [List.mem_map] at h
  obtain ⟨j, hj, rfl⟩ := h
  simp [getCol]

/-- C7: when `input_data` has fewer than 2 axes, `robustness_analysis`
raises the validation error immediately: the result is the error value,
no pipeline stage runs and no (partial) result bundle is produced. -/
theorem robustness_analysis_validates_ndim (ndim : ℕ) (opts : Option (List String))
    (h : ndim < 2) :
    robustness_analysis ndim opts = Except.error "`input_data` must be at least 2D." := by
  rw [robustness_analysis, if_pos h]

/-- Witness for C7 at a 1-axis input. -/
theorem robustness_analysis_validates_ndim_witness :
    1 < 2 ∧
    robustness_analysis 1 none = Except.error "`input_data` must be at least 2D." :=
  ⟨by decide, robustness_analysis_validates_ndim 1 none (by decide)⟩

/-- C9: passing `None` and passing the empty allow-list yield identical
result bundles (both resolve to the default `_OPTIONS`); the defaulted
bundle is nonempty; and under the default the `pred_stats` field is
never populated, although it is recognized when explicitly requested. -/
theorem robustness_analysis_default_options (ndim : ℕ) :
    robustness_analysis ndim none = robustness_analysis ndim (some []) ∧
    robustness_analysis_keys (resolve_options (some [])) ≠ [] ∧
    "pred_stats" ∉ robustness_analysis_keys (resolve_options none) ∧
    "pred_stats" ∈ robustness_analysis_keys (resolve_options (some ["pred_stats"])) :=
  ⟨rfl, by decide, by decide, by decide⟩

/-- C5 counterexample: with the allow-list `["transformed_data"]` the
classification counts are computed but none of the three trust metrics
is, so the trust metrics are not "always computed internally regardless
of the allow-list". -/
theorem robustness_analysis_metrics_not_always_computed :
    "classify_events" ∈
      robustness_analysis_computed (resolve_options (some ["transformed_data"])) ∧
    "detection_ratio" ∉
      robustness_analysis_computed (resolve_options (some ["transformed_data"])) ∧
    "reliability" ∉
      robustness_analysis_computed (resolve_options (some ["transformed_data"])) ∧
    "erer" ∉
      robustness_analysis_computed (resolve_options (some ["transformed_data"])) := by
  decide

/-- C5 (amended): whenever `robustness_analysis` returns a bundle, every
populated field's governing option key is in the resolved allow-list;
the classification counts (`classify_events`) are always computed
internally; but the trust metrics are computed exactly when
`trust_metrics` is requested, not unconditionally. -/
theorem robustness_analysis_fields_gated (ndim : ℕ) (optsArg : Option (List String))
    (ks cs : List String)
    (h : robustness_analysis ndim optsArg = Except.ok (ks, cs)) :
    (∀ k ∈ ks, governing_option k ∈ resolve_options optsArg) ∧
    "classify_events" ∈ cs ∧
    ("detection_ratio" ∈ cs ↔ "trust_metrics" ∈ resolve_options optsArg) ∧
    ("reliability" ∈ cs ↔ "trust_metrics" ∈ resolve_options optsArg) ∧
    ("erer" ∈ cs ↔ "trust_metrics" ∈ resolve_options optsArg) := by
  rw [robustness_analysis] at h
  split at h
  · cases h
  · rw [Except.ok.injEq, Prod.mk.injEq] at h
    obtain ⟨hks, hcs⟩ := h
    subst hks
    subst hcs
    refine ⟨mem_keys_governing _, ?_, ?_, ?_, ?_⟩ <;>
      by_cases ht : "trust_metrics" ∈ resolve_options optsArg <;>
      simp [robustness_analysis_computed, ht]

/-- Witness for the amended C5 at `ndim = 2` and allow-list `["ICSD"]`. -/
theorem robustness_analysis_fields_gated_witness :
    robustness_analysis 2 (some ["ICSD"]) = Except.ok
      (["Insertions", "corrects", "substitutions", "deletions"],
        ["generate_probabilities", "prediction_statistics",
         "plot_prediction_probabilities", "interpolate_probabilities",
         "filter_butterworth", "plot_signal_interpolated",
         "apply_probability_threshold", "get_continuous_events",
         "apply_duration_threshold", "plot_signal_thresholded",
         "classify_events"]) ∧
    ((∀ k ∈ (["Insertions", "corrects", "substitutions", "deletions"] : List String),
        governing_option k ∈ resolve_options (some ["ICSD"])) ∧
      "classify_events" ∈
        (["generate_probabilities", "prediction_statistics",
          "plot_prediction_probabilities", "interpolate_probabilities",
          "filter_butterworth", "plot_signal_interpolated",
          "apply_probability_threshold", "get_continuous_events",
          "apply_duration_threshold", "plot_signal_thresholded",
          "classify_events"] : List String) ∧
      ("detection_ratio" ∈
          (["generate_probabilities", "prediction_statistics",
            "plot_prediction_probabilities", "interpolate_probabilities",
            "filter_butterworth", "plot_signal_interpolated",
            "apply_probability_threshold", "get_continuous_events",
            "apply_duration_threshold", "plot_signal_thresholded",
            "classify_events"] : List String) ↔
        "trust_metrics" ∈ resolve_options (some ["ICSD"])) ∧
      ("reliability" ∈
          (["generate_probabilities", "prediction_statistics",
            "plot_prediction_probabilities", "interpolate_probabilities",
            "filter_butterworth", "plot_signal_interpolated",
            "apply_probability_threshold", "get_continuous_events",
            "apply_duration_threshold", "plot_signal_thresholded",
            "classify_events"] : List String) ↔
        "trust_metrics" ∈ resolve_options (some ["ICSD"])) ∧
      ("erer" ∈
          (["generate_probabilities", "prediction_statistics",
            "plot_prediction_probabilities", "interpolate_probabilities",
            "filter_butterworth", "plot_signal_interpolated",
            "apply_probability_threshold", "get_continuous_events",
            "apply_duration_threshold", "plot_signal_thresholded",
            "classify_events"] : List String) ↔
        "trust_metrics" ∈ resolve_options (some ["ICSD"]))) :=
  ⟨rfl, robustness_analysis_fields_gated 2 (some ["ICSD"])
    ["Insertions", "corrects", "substitutions", "deletions"]
    ["generate_probabilities", "prediction_statistics",
     "plot_prediction_probabilities", "interpolate_probabilities",
     "filter_butterworth", "plot_signal_interpolated",
     "apply_probability_threshold", "get_continuous_events",
     "apply_duration_threshold", "plot_signal_thresholded",
     "classify_events"] rfl⟩

/-- C10: the three plotting calls (`plot_prediction_probabilities` and
the two `plot_signal` calls) run unconditionally for every allow-list;
omitting `figures` only keeps the already-built figures out of the
returned dictionary. -/
theorem robustness_analysis_plots_unconditional (opts : List String) :
    "plot_prediction_probabilities" ∈ robustness_analysis_computed opts ∧
    "plot_signal_interpolated" ∈ robustness_analysis_computed opts ∧
    "plot_signal_thresholded" ∈ robustness_analysis_computed opts ∧
    ("figures" ∉ opts → "figures" ∉ robustness_analysis_keys opts) := by
  refine ⟨?_, ?_, ?_, ?_⟩
  · simp [robustness_analysis_computed]
  · simp [robustness_analysis_computed]
  · simp [robustness_analysis_computed]
  · intro hf hk
    exact hf (mem_keys_governing opts "figures" hk)

/-- Witness for C10 at the allow-list `["ICSD"]`, which omits
`figures`. -/
theorem robustness_analysis_plots_unconditional_witness :
    "figures" ∉ (["ICSD"] : List String) ∧
    ("plot_prediction_probabilities" ∈ robustness_analysis_computed ["ICSD"] ∧
      "plot_signal_interpolated" ∈ robustness_analysis_computed ["ICSD"] ∧
      "plot_signal_thresholded" ∈ robustness_analysis_computed ["ICSD"] ∧
      "figures" ∉ robustness_analysis_keys ["ICSD"]) :=
  ⟨by decide,
    ⟨(robustness_analysis_plots_unconditional ["ICSD"]).1,
      (robustness_analysis_plots_unconditional ["ICSD"]).2.1,
      (robustness_analysis_plots_unconditional ["ICSD"]).2.2.1,
      (robustness_analysis_plots_unconditional ["ICSD"]).2.2.2 (by decide)⟩⟩

/-- C6: both batch variants invoke `robustness_analysis` per instance
with keyword arguments `sample_rate`, `perc_overlap` and `duration_th`,
none of which is a parameter of `robustness_analysis` (whose parameters
are `sr`, `overlap_percentage`, `dur_th`), so as soon as one instance is
processed the call raises TypeError instead of producing the
per-filename mapping of single-instance result bundles. -/
theorem robustness_batch_call_rejected :
    python_kwargs_accepted robustness_analysis_params
      robustness_analysis_many_call_kwargs = false ∧
    python_kwargs_accepted robustness_analysis_params
      robustness_analysis_batch_call_kwargs = false ∧
    "sample_rate" ∈ robustness_analysis_many_call_kwargs ∧
    "sample_rate" ∉ robustness_analysis_params ∧
    "perc_overlap" ∈ robustness_analysis_batch_call_kwargs ∧
    "perc_overlap" ∉ robustness_analysis_params ∧
    "duration_th" ∈ robustness_analysis_many_call_kwargs ∧
    "duration_th" ∉ robustness_analysis_params := by
  decide

/-- C8: assuming the external low-pass filter returns a signal of the
same length as its input, the smoothing stage preserves the number of
samples and the number of class channels of the reconstructed
`(samples, classes)` curve (a curve has at least one class channel). -/
theorem smoothing_preserves_shape (filt : List ℚ → List ℚ) (n c : ℕ)
    (m : List (List ℚ)) (hc : 0 < c)
    (hfilt : ∀ l : List ℚ, (filt l).length = l.length)
    (hrows : m.length = n) (hcols : ∀ row ∈ m, row.length = c) :
    (smoothed_probas filt c m).length = n ∧
    ∀ row ∈ smoothed_probas filt c m, row.length = c := by
  obtain ⟨d, rfl⟩ : ∃ d, c = d + 1 := ⟨c - 1, by omega⟩
  have hhead : ((transposeM (d + 1) m).map filt).headD [] = filt (getCol m 0) := by
    rw [transposeM, List.range_succ_eq_map]
    simp
  constructor
  · rw [smoothed_probas, length_transposeM, hhead, hfilt]
    simpa [getCol] using hrows
  · intro row hrow
    have h1 := mem_transposeM_length _ _ row hrow
    rw [List.length_map, length_transposeM] at h1
    exact h1

/-- Witness for C8 on a concrete 2-sample, 2-channel curve with a
length-preserving halving filter. -/
theorem smoothing_preserves_shape_witness :
    0 < 2 ∧
    (∀ l : List ℚ, (l.map fun x => x / 2).length = l.length) ∧
    ([[(1 : ℚ), 2], [3, 4]] : List (List ℚ)).length = 2 ∧
    (∀ row ∈ ([[(1 : ℚ), 2], [3, 4]] : List (List ℚ)), row.length = 2) ∧
    ((smoothed_probas (fun l => l.map fun x => x / 2) 2 [[(1 : ℚ), 2], [3, 4]]).length = 2 ∧
      ∀ row ∈ smoothed_probas (fun l => l.map fun x => x / 2) 2 [[(1 : ℚ), 2], [3, 4]],
        row.length = 2) :=
  ⟨by decide, fun l => List.length_map l _, rfl,
    by intro row h; simp only [List.mem_cons, List.not_mem_nil, or_false] at h; rcases h with rfl | rfl <;> rfl,
    smoothing_preserves_shape (fun l => l.map fun x => x / 2) 2 2
      [[(1 : ℚ), 2], [3, 4]] (by decide) (fun l => List.length_map l _) rfl
      (by intro row h; simp only [List.mem_cons, List.not_mem_nil, or_false] at h; rcases h with rfl | rfl <;> rfl)⟩

end Caits
